import Mathlib

/-!
Verification development for the MutsaDemoDay store-recommendation service.

The Python source (`app/services/collaborative_filtering.py`,
`app/services/recommendation.py`, `app/utils/calculator.py`,
`app/models/response.py`) is shallowly embedded:

* numeric values (visit counts, similarities, scores, coordinates) are
  modelled as `ℚ`, except the haversine distance which is modelled over `ℝ`
  because it uses `sin`, `cos`, `sqrt` and `atan2`;
* Python exceptions (pandas `iloc` IndexError, `list.index` ValueError)
  are modelled as `Option`, with `none` standing for a raised exception;
* pandas `pivot_table(index=u, columns=s, values=v, fill_value=0)` is
  embedded by its documented semantics: row labels are the distinct user
  ids sorted ascending, column labels are the distinct store ids sorted
  ascending (pandas sorts group keys by default), each cell is the mean of
  the matching `visit_count` values (`aggfunc` defaults to `'mean'`), and
  absent cells are filled with `0`;
* the `sklearn` k-nearest-neighbour query (`kneighbors` under the cosine
  metric, followed by dropping the first hit and mapping distances through
  `1 - d`) is the single numeric sub-component that cannot be expressed
  over `ℚ`; its post-processed result (the `similar_users` list of
  `(user_id, similarity)` pairs) is passed to the embedded functions as an
  explicit `oracle` argument, and all theorems about the surrounding code
  are proved for every value of that argument;
* Python's stable `list.sort(key=..., reverse=True)` and pandas
  `Series.nlargest` (`keep='first'`) are embedded as a stable descending
  insertion sort; `np.argsort` followed by `[::-1]` is embedded as a
  stable ascending argsort followed by `List.reverse` (numpy's default
  quicksort leaves ties unspecified; no theorem below depends on the tie
  order).

String keys are compared through `String.data`, i.e. lexicographically by
code point, which is exactly Python's (and pandas') string ordering.
-/

namespace Spec2Proof

/-! ## Generic list helpers (stable sorts, indexing) -/

/-- Ordering on strings used by pandas when sorting pivot-table labels:
lexicographic comparison of the code-point sequences. -/
def strLt (a b : String) : Prop := a.data < b.data

instance (a b : String) : Decidable (strLt a b) := by
  unfold strLt; infer_instance

/-- Insert a key into an ascending sorted list of distinct keys, dropping
the insertion when the key is already present. -/
def sortedInsert (x : String) : List String → List String
  | [] => [x]
  | y :: ys =>
    if strLt x y then x :: y :: ys
    else if x = y then y :: ys
    else y :: sortedInsert x ys

/-- Distinct keys of a list, in ascending order: the row/column labels a
pandas pivot table produces for this list of group keys. -/
def sortedKeys (l : List String) : List String :=
  l.foldl (fun acc x => sortedInsert x acc) []

/-- Index of the first occurrence of a key, mirroring Python's
`list.index` (callers guard membership; on a missing key the embedded
callers return `none` where Python raises `ValueError`). -/
def idxOf (x : String) : List String → Nat
  | [] => 0
  | y :: ys => if y = x then 0 else idxOf x ys + 1

/-- Stable insertion into a descending-sorted list: the new element is
placed after every element whose key is not smaller, so later elements of
the original list end up after earlier ones on ties. -/
def insDescBy {α : Type} (f : α → ℚ) (x : α) : List α → List α
  | [] => [x]
  | y :: ys => if f y < f x then x :: y :: ys else y :: insDescBy f x ys

/-- Stable descending sort by a rational key: Python's
`list.sort(key=..., reverse=True)` and pandas `nlargest(keep='first')`. -/
def sortDescBy {α : Type} (f : α → ℚ) (l : List α) : List α :=
  l.foldl (fun acc x => insDescBy f x acc) []

/-- Stable ascending insertion by a rational key. -/
def insAscBy {α : Type} (f : α → ℚ) (x : α) : List α → List α
  | [] => [x]
  | y :: ys => if f x < f y then x :: y :: ys else y :: insAscBy f x ys

/-- Stable ascending sort by a rational key (`np.argsort` on the index
range). -/
def sortAscBy {α : Type} (f : α → ℚ) (l : List α) : List α :=
  l.foldl (fun acc x => insAscBy f x acc) []

/-! ## Collaborative filtering model (`collaborative_filtering.py`) -/

/-- Visit record as consumed by `CollaborativeFilteringModel`:
`{"user_id": ..., "store_id": ..., "visit_count": ...}`. -/
structure Visit where
  user_id : String
  store_id : String
  visit_count : ℚ

/-- Labelled user-store matrix standing for the pandas `DataFrame`
produced by `pivot_table`: `idx` are the row labels (user ids), `cols`
the column labels (store ids), `rows` the cell values in row-major
order. -/
structure DFrame where
  idx : List String
  cols : List String
  rows : List (List ℚ)

/-- Emptiness of a pandas `DataFrame`: some axis has length 0. -/
def DFrame.isEmpty (df : DFrame) : Bool :=
  df.idx.isEmpty || df.cols.isEmpty

/-- Column sums of the matrix (`user_item_matrix.sum(axis=0)`). -/
def DFrame.colSums (df : DFrame) : List ℚ :=
  (List.range df.cols.length).map (fun j => (df.rows.map (fun r => r.getD j 0)).sum)

/-- Cell value of the pivot table for one (user, store) pair: the mean of
the matching visit counts, `0` when the pair never occurs (`fill_value`). -/
def cellValue (visits : List Visit) (u s : String) : ℚ :=
  let cs := (visits.filter (fun v => v.user_id = u && v.store_id = s)).map (fun v => v.visit_count)
  if cs.isEmpty then 0 else cs.sum / (cs.length : ℚ)

/-- State of `CollaborativeFilteringModel`: the trained matrix (if any),
the label lists and the trained flag.  The fitted sklearn index itself is
not modelled; its query result enters through the `oracle` argument. -/
structure CFModel where
  user_item_matrix : Option DFrame
  user_ids : List String
  store_ids : List String
  is_trained : Bool

/-- Fresh model (`__init__`). -/
def CFModel.init : CFModel :=
  { user_item_matrix := none, user_ids := [], store_ids := [], is_trained := false }

/-- Embeds `create_user_item_matrix`: on empty input it returns an empty
frame without touching `user_ids`/`store_ids`; otherwise it builds the
pivot table and stores its labels on the model. -/
def create_user_item_matrix (m : CFModel) (visit_data : List Visit) : CFModel × DFrame :=
  if visit_data.isEmpty then (m, ⟨[], [], []⟩)
  else
    let uids := sortedKeys (visit_data.map (fun v => v.user_id))
    let sids := sortedKeys (visit_data.map (fun v => v.store_id))
    let df : DFrame := ⟨uids, sids, uids.map (fun u => sids.map (fun s => cellValue visit_data u s))⟩
    ({ m with user_ids := uids, store_ids := sids }, df)

/-- Embeds `train`: stores the pivot table, and on an empty frame returns
early, leaving `is_trained` (and any stale labels) unchanged. -/
def CFModel.train (m : CFModel) (visit_data : List Visit) : CFModel :=
  let p := create_user_item_matrix m visit_data
  let m1 := { p.1 with user_item_matrix := some p.2 }
  if p.2.isEmpty then m1 else { m1 with is_trained := true }

/-- Embeds `get_similar_users`.  The guards mirror the source; the row
access `user_item_matrix.iloc[user_idx]` is a fallible step (IndexError on
a stale empty matrix), after which the kNN query result (`oracle`) is
returned. -/
def CFModel.get_similar_users (m : CFModel) (oracle : List (String × ℚ)) (user_id : String) :
    Option (List (String × ℚ)) :=
  if m.is_trained = false ∨ user_id ∉ m.user_ids then some []
  else if m.user_ids.length ≤ 1 then some []
  else
    match m.user_item_matrix with
    | none => none
    | some df =>
      match df.rows.get? (idxOf user_id m.user_ids) with
      | none => none
      | some _ => some oracle

/-- Weighted accumulation loop of `recommend_stores`: for each similar
user, `predicted_scores += similarity * similar_user_visits`.  A similar
user absent from `user_ids` (Python `ValueError`) or an out-of-range row
(IndexError) yields `none`. -/
def weightedRows (df : DFrame) (user_ids : List String) :
    List (String × ℚ) → List ℚ → Option (List ℚ)
  | [], acc => some acc
  | (suid, sim) :: rest, acc =>
    if suid ∈ user_ids then
      match df.rows.get? (idxOf suid user_ids) with
      | none => none
      | some r => weightedRows df user_ids rest (List.zipWith (fun a x => a + sim * x) acc r)
    else none

/-- Popularity fallback `_recommend_for_new_user`: total visit count per
store column, `nlargest(n)` with `keep='first'`, keeping positive
totals. -/
def CFModel.recommend_for_new_user (m : CFModel) (n : Nat) : List (String × ℚ) :=
  match m.user_item_matrix with
  | none => []
  | some df =>
    if df.isEmpty then []
    else ((sortDescBy (fun p => p.2) (df.cols.zip df.colSums)).take n).filter (fun p => 0 < p.2)

/-- Step 3 of `recommend_stores` with `exclude_visited`: stores the target
user already has a positive visit count for are overwritten with the
score -1 (`predicted_scores[visited_mask] = -1`). -/
def maskVisited (predicted1 user_visited : List ℚ) : List ℚ :=
  List.zipWith (fun q v => if 0 < v then (-1 : ℚ) else q) predicted1 user_visited

/-- Step 4 of `recommend_stores`: order the store columns by predicted
score descending (`np.argsort(...)[::-1]`), take the top N indices, and
keep the entries with a positive score, labelled with the store ids. -/
def rankPositive (store_ids : List String) (predicted2 : List ℚ) (n : Nat) :
    List (String × ℚ) :=
  let order := ((sortAscBy (fun i => predicted2.getD i 0)
      (List.range predicted2.length)).reverse).take n
  order.filterMap (fun i =>
    if 0 < predicted2.getD i 0 then some (store_ids.getD i "", predicted2.getD i 0) else none)

/-- Embeds `recommend_stores`.  `oracle` is the post-processed result of
the kNN query `get_similar_users(user_id, 10)`; `none` models a raised
exception. -/
def CFModel.recommend_stores (m : CFModel) (oracle : List (String × ℚ)) (user_id : String)
    (n_recommendations : Nat) (exclude_visited : Bool) : Option (List (String × ℚ)) :=
  if m.is_trained = false then some []
  else if m.user_ids.length < 2 then some (m.recommend_for_new_user n_recommendations)
  else if user_id ∉ m.user_ids then some (m.recommend_for_new_user n_recommendations)
  else
    match m.get_similar_users oracle user_id with
    | none => none
    | some similar_users =>
      if similar_users.isEmpty then some (m.recommend_for_new_user n_recommendations)
      else
        match m.user_item_matrix with
        | none => none
        | some df =>
          match df.rows.get? (idxOf user_id m.user_ids) with
          | none => none
          | some user_visited =>
            match weightedRows df m.user_ids similar_users
                (List.replicate m.store_ids.length 0) with
            | none => none
            | some predicted0 =>
              let total := (similar_users.map (fun p => p.2)).sum
              let predicted1 := if 0 < total then predicted0.map (fun q => q / total) else predicted0
              let predicted2 :=
                if exclude_visited then maskVisited predicted1 user_visited else predicted1
              some (rankPositive m.store_ids predicted2 n_recommendations)

/-- Observable used by the claims: the target user's cell of the trained
interaction matrix (0 outside the matrix). -/
def CFModel.cell (m : CFModel) (u s : String) : ℚ :=
  match m.user_item_matrix with
  | none => 0
  | some df => (df.rows.getD (idxOf u df.idx) []).getD (idxOf s df.cols) 0

/-! ## Store catalog lookup (`recommendation.py`, `_get_store_by_*`) -/

/-- Row of `stores_df`, the in-memory store catalog. -/
structure CatStore where
  store_id : String
  name : String
  address : String
  latitude : ℚ
  longitude : ℚ
  rating : ℚ
deriving DecidableEq

/-- Python `str.strip()` on the code-point list (ASCII whitespace; the
catalog data contains no exotic Unicode whitespace). -/
def stripS (s : String) : List Char :=
  ((s.data.dropWhile Char.isWhitespace).reverse.dropWhile Char.isWhitespace).reverse

/-- Containment of one code-point list in another, Python's `in` /
pandas `str.contains(..., regex=False)`. -/
def leadsWith : List Char → List Char → Bool
  | [], _ => true
  | _ :: _, [] => false
  | a :: as, b :: bs => a = b && leadsWith as bs

def occursIn (q : List Char) : List Char → Bool
  | [] => leadsWith q []
  | c :: cs => leadsWith q (c :: cs) || occursIn q cs

/-- Embeds `_get_store_by_id`: first catalog row with this identifier. -/
def getStoreById (catalog : List CatStore) (sid : String) : Option CatStore :=
  (catalog.filter (fun st => st.store_id = sid)).head?

/-- Embeds `_get_store_by_address`: exact match, then match after
stripping whitespace on both sides, then substring containment of the
stripped query; each tier runs only if the previous found nothing, and
the first matching row wins. -/
def getStoreByAddress (catalog : List CatStore) (addr : String) : Option CatStore :=
  match catalog.filter (fun st => st.address = addr) with
  | st :: _ => some st
  | [] =>
    match catalog.filter (fun st => stripS st.address = stripS addr) with
    | st :: _ => some st
    | [] =>
      match catalog.filter (fun st => occursIn (stripS addr) st.address.data) with
      | st :: _ => some st
      | [] => none

/-! ## Category pipelines (`recommendation.py`) -/

/-- Candidate produced by `_create_store_info`, restricted to the fields
the pipelines read afterwards (the human-readable reason strings are pure
presentation and are not modelled). -/
structure StoreInfo where
  name : String
  address : String
  distance_km : ℚ
  recommendation_score : ℚ
deriving DecidableEq

/-- Externally visible store form (`SimpleStoreInfo`): name and address
only. -/
structure SimpleStoreInfo where
  name : String
  address : String
deriving DecidableEq

def StoreInfo.toSimple (c : StoreInfo) : SimpleStoreInfo := ⟨c.name, c.address⟩

/-- Event-store candidate record (`{"store_address", "exp_multiplier"}`). -/
structure EventData where
  store_address : String
  exp_multiplier : ℚ

/-- New-store candidate record; `joined_day` is the joined date in days so
that `days_since_joined = current_day - joined_day`. -/
structure NewData where
  store_address : String
  joined_day : ℤ

/-- Popular-store candidate record. -/
structure PopularData where
  store_address : String
  visit_count : ℚ

/-- Haversine distance is an opaque numeric collaborator for the
pipelines: `hav ulat ulon slat slon` stands for
`haversine_distance(user_lat, user_lon, store.latitude, store.longitude)`.
All pipeline theorems hold for every such function; the function itself
is verified separately over `ℝ`. -/
abbrev HavFn := ℚ → ℚ → ℚ → ℚ → ℚ

/-- Candidate list of `recommend_event_stores`: resolve each candidate by
address (unresolved ones are dropped) and score it
`exp_multiplier * 30 - distance * 2`. -/
def eventCandidates (catalog : List CatStore) (hav : HavFn) (ulat ulon : ℚ)
    (eventData : List EventData) : List StoreInfo :=
  eventData.filterMap (fun ed =>
    (getStoreByAddress catalog ed.store_address).map (fun st =>
      let d := hav ulat ulon st.latitude st.longitude
      ⟨st.name, st.address, d, ed.exp_multiplier * 30 - d * 2⟩))

/-- Embeds `recommend_event_stores` up to (and including) the top-2
truncation: sort the candidates by score descending (stable), take 2. -/
def recommend_event_full (catalog : List CatStore) (hav : HavFn) (ulat ulon : ℚ)
    (eventData : List EventData) : List StoreInfo :=
  (sortDescBy (fun c => c.recommendation_score)
    (eventCandidates catalog hav ulat ulon eventData)).take 2

/-- Final form returned by `recommend_event_stores`. -/
def recommend_event_stores (catalog : List CatStore) (hav : HavFn) (ulat ulon : ℚ)
    (eventData : List EventData) : List SimpleStoreInfo :=
  (recommend_event_full catalog hav ulat ulon eventData).map StoreInfo.toSimple

/-- Embeds `recommend_new_stores`: score
`max(0, (30 - days_since_joined) * 2) - distance * 2`. -/
def recommend_new_full (catalog : List CatStore) (hav : HavFn) (ulat ulon : ℚ)
    (current_day : ℤ) (newData : List NewData) : List StoreInfo :=
  let candidates := newData.filterMap (fun nd =>
    (getStoreByAddress catalog nd.store_address).map (fun st =>
      let d := hav ulat ulon st.latitude st.longitude
      let days : ℤ := current_day - nd.joined_day
      ⟨st.name, st.address, d, max 0 (((30 - days : ℤ) : ℚ) * 2) - d * 2⟩))
  (sortDescBy (fun c => c.recommendation_score) candidates).take 2

def recommend_new_stores (catalog : List CatStore) (hav : HavFn) (ulat ulon : ℚ)
    (current_day : ℤ) (newData : List NewData) : List SimpleStoreInfo :=
  (recommend_new_full catalog hav ulat ulon current_day newData).map StoreInfo.toSimple

/-- Embeds `recommend_popular_stores`: score
`visit_count / 10 - distance * 2`. -/
def recommend_popular_full (catalog : List CatStore) (hav : HavFn) (ulat ulon : ℚ)
    (popularData : List PopularData) : List StoreInfo :=
  let candidates := popularData.filterMap (fun pd =>
    (getStoreByAddress catalog pd.store_address).map (fun st =>
      let d := hav ulat ulon st.latitude st.longitude
      ⟨st.name, st.address, d, pd.visit_count / 10 - d * 2⟩))
  (sortDescBy (fun c => c.recommendation_score) candidates).take 2

def recommend_popular_stores (catalog : List CatStore) (hav : HavFn) (ulat ulon : ℚ)
    (popularData : List PopularData) : List SimpleStoreInfo :=
  (recommend_popular_full catalog hav ulat ulon popularData).map StoreInfo.toSimple

/-- Embeds `recommend_nearby_stores`: iterate the whole catalog, skip
stores whose address was already recommended, skip stores farther than
5 km, score `30 - distance * 5 + rating * 2`, sort, take 2. -/
def recommend_nearby_full (catalog : List CatStore) (hav : HavFn) (ulat ulon : ℚ)
    (recommended_addresses : List String) : List StoreInfo :=
  let candidates := catalog.filterMap (fun st =>
    if st.address ∈ recommended_addresses then none
    else
      let d := hav ulat ulon st.latitude st.longitude
      if 5 < d then none
      else some (⟨st.name, st.address, d, 30 - d * 5 + st.rating * 2⟩ : StoreInfo))
  (sortDescBy (fun c => c.recommendation_score) candidates).take 2

def recommend_nearby_stores (catalog : List CatStore) (hav : HavFn) (ulat ulon : ℚ)
    (recommended_addresses : List String) : List SimpleStoreInfo :=
  (recommend_nearby_full catalog hav ulat ulon recommended_addresses).map StoreInfo.toSimple

/-- Candidate-collection loop of `recommend_cf_stores`: for each
`(store_id, predicted_score)` pair coming from the CF model, resolve the
store by id (drop when unresolved), drop it when farther than 10 km,
score `predicted_score * 10 - distance * 1`, and stop as soon as 5
candidates are collected (the `break` fires after the append). -/
def cfCollect (catalog : List CatStore) (hav : HavFn) (ulat ulon : ℚ) :
    List (String × ℚ) → List StoreInfo → List StoreInfo
  | [], acc => acc.reverse
  | (sid, p) :: rest, acc =>
    match getStoreById catalog sid with
    | none => cfCollect catalog hav ulat ulon rest acc
    | some st =>
      let d := hav ulat ulon st.latitude st.longitude
      if 10 < d then cfCollect catalog hav ulat ulon rest acc
      else
        let acc2 := (⟨st.name, st.address, d, p * 10 - d * 1⟩ : StoreInfo) :: acc
        if 5 ≤ acc2.length then acc2.reverse else cfCollect catalog hav ulat ulon rest acc2

/-- Tail of `recommend_cf_stores` after the CF model produced its
`(store_id, predicted_score)` list `cf_recs`: collect, sort by score
descending, take 2. -/
def recommend_cf_full (catalog : List CatStore) (hav : HavFn) (ulat ulon : ℚ)
    (cf_recs : List (String × ℚ)) : List StoreInfo :=
  (sortDescBy (fun c => c.recommendation_score) (cfCollect catalog hav ulat ulon cf_recs [])).take 2

def recommend_cf_stores (catalog : List CatStore) (hav : HavFn) (ulat ulon : ℚ)
    (cf_recs : List (String × ℚ)) : List SimpleStoreInfo :=
  (recommend_cf_full catalog hav ulat ulon cf_recs).map StoreInfo.toSimple

/-! ## Orchestrator (`RecommendationService.recommend_stores`) -/

/-- One entry of the final response (`CategoryRecommendation`). -/
structure CategoryRecommendation where
  category : String
  stores : List SimpleStoreInfo
deriving DecidableEq

/-- Final response (`RecommendationResponse`). -/
structure RecommendationResponse where
  success : Bool
  user_id : String
  recommendations : List CategoryRecommendation
deriving DecidableEq

/-- Outcome of one category pipeline: `Except.error` models the pipeline
raising an exception (database failure, unexpected scoring error). -/
abbrev CatOutcome := Except String (List SimpleStoreInfo)

/-- The `try ... except` around each category: a raised exception degrades
that category to the empty list. -/
def catchResult (r : CatOutcome) : List SimpleStoreInfo :=
  match r with
  | .ok l => l
  | .error _ => []

/-- Embeds the body of `RecommendationService.recommend_stores`.  The five
category pipelines enter as outcomes (`nearbyR` receives the
`all_recommended_addresses` set collected from the earlier categories,
exactly as in the source).  The AI category runs first; its chosen
addresses protect it: every later category's result is filtered against
them, inside that category's `try` block. -/
def recommend_stores_core (uid : String) (cfR eventR newR popularR : CatOutcome)
    (nearbyR : List String → CatOutcome) : RecommendationResponse :=
  let cf_stores := catchResult cfR
  let ai := cf_stores.map (fun s => s.address)
  let event_stores :=
    match eventR with
    | .error _ => []
    | .ok raw => raw.filter (fun s => decide (s.address ∉ ai))
  let new_stores :=
    match newR with
    | .error _ => []
    | .ok raw => raw.filter (fun s => decide (s.address ∉ ai))
  let popular_stores :=
    match popularR with
    | .error _ => []
    | .ok raw => raw.filter (fun s => decide (s.address ∉ ai))
  let allAddrs := ai ++ event_stores.map (fun s => s.address)
    ++ new_stores.map (fun s => s.address) ++ popular_stores.map (fun s => s.address)
  let nearby_stores :=
    match nearbyR allAddrs with
    | .error _ => []
    | .ok raw => raw.filter (fun s => decide (s.address ∉ ai))
  { success := true
    user_id := uid
    recommendations :=
      [⟨"AI 추천 가게", cf_stores⟩,
       ⟨"이벤트 참여 가게", event_stores⟩,
       ⟨"신규 가입 가게", new_stores⟩,
       ⟨"인기 가게", popular_stores⟩,
       ⟨"가까운 가게", nearby_stores⟩] }

/-! ## Haversine distance (`calculator.py`), over `ℝ` -/

/-- Quadrant-aware arctangent, the semantics of `math.atan2(y, x)`. -/
noncomputable def atan2 (y x : ℝ) : ℝ :=
  if 0 < x then Real.arctan (y / x)
  else if x < 0 ∧ 0 ≤ y then Real.arctan (y / x) + Real.pi
  else if x < 0 ∧ y < 0 then Real.arctan (y / x) - Real.pi
  else if x = 0 ∧ 0 < y then Real.pi / 2
  else if x = 0 ∧ y < 0 then -(Real.pi / 2)
  else 0

/-- Python's `round(x, 2)`, modelled as rounding half away from zero (the
half-to-even difference can only matter on exact half-cent values, which
none of the verified properties depend on). -/
noncomputable def round2 (x : ℝ) : ℝ := (round (x * 100) : ℤ) / 100

/-- Embeds `haversine_distance`: degrees to radians, haversine formula on
a sphere of radius 6371 km, rounded to 2 decimal places. -/
noncomputable def haversine_distance (lat1 lon1 lat2 lon2 : ℝ) : ℝ :=
  let R : ℝ := 6371
  let lat1r := lat1 * (Real.pi / 180)
  let lon1r := lon1 * (Real.pi / 180)
  let lat2r := lat2 * (Real.pi / 180)
  let lon2r := lon2 * (Real.pi / 180)
  let dlat := lat2r - lat1r
  let dlon := lon2r - lon1r
  let a := Real.sin (dlat / 2) ^ 2 + Real.cos lat1r * Real.cos lat2r * Real.sin (dlon / 2) ^ 2
  let c := 2 * atan2 (Real.sqrt a) (Real.sqrt (1 - a))
  round2 (R * c)

/-! ## Claim-level observables, spec-side comparison definitions and
concrete instance data -/

/-- Address list the AI category protects, read off the final response. -/
def aiAddresses (r : RecommendationResponse) : List String :=
  (r.recommendations.headD ⟨"", []⟩).stores.map (fun s => s.address)

/-- Modelled from the claim (C10): the alternative operation order, with
the AI-protection filter applied to the full ranked candidate list before
the top-2 truncation. -/
def eventDedupFirst (ai : List String) (catalog : List CatStore) (hav : HavFn) (ulat ulon : ℚ)
    (eventData : List EventData) : List SimpleStoreInfo :=
  (((sortDescBy (fun c => c.recommendation_score)
      (eventCandidates catalog hav ulat ulon eventData)).filter
      (fun c => decide (c.address ∉ ai))).take 2).map StoreInfo.toSimple

/-- Modelled from the spec (claim C2): the distinct keys of a list in
first-seen order. -/
def firstSeenKeys (l : List String) : List String :=
  l.foldl (fun acc x => if x ∈ acc then acc else acc ++ [x]) []

/-- Concrete three-store catalog used by the C10 instance. -/
def catalogX : List CatStore :=
  [⟨"st01", "n1", "a1", 0, 0, 0⟩, ⟨"st02", "n2", "a2", 0, 0, 0⟩, ⟨"st03", "n3", "a3", 0, 0, 0⟩]

/-- Distance function that puts every store at the user's location. -/
def havZero : HavFn := fun _ _ _ _ => 0

/-- Concrete event candidates with multipliers 3, 2, 1. -/
def eventDataX : List EventData := [⟨"a1", 3⟩, ⟨"a2", 2⟩, ⟨"a3", 1⟩]

/-- Single-user training data for the C1 counterexample. -/
def visitsC1 : List Visit := [⟨"u1", "sA", 5⟩]

/-- Visit data whose first-seen user order differs from sorted order. -/
def visitsC2 : List Visit := [⟨"u2", "s2", 1⟩, ⟨"u1", "s1", 2⟩]

/-- Two-user training data for the C3 failing input. -/
def visitsC3 : List Visit := [⟨"u1", "sA", 1⟩, ⟨"u2", "sB", 2⟩]

/-! ## Helper lemmas -/

theorem strData_inj {a b : String} (h : a.data = b.data) : a = b := by
  cases a; cases b; simp_all

theorem strLt_trans {a b c : String} (h1 : strLt a b) (h2 : strLt b c) : strLt a c :=
  lt_trans h1 h2

theorem strLt_irrefl (a : String) : ¬ strLt a a := lt_irrefl a.data

theorem strLt_total {a b : String} (h1 : ¬ strLt a b) (h2 : a ≠ b) : strLt b a := by
  rcases lt_trichotomy a.data b.data with h | h | h
  · exact absurd h h1
  · exact absurd (strData_inj h) h2
  · exact h

theorem sortedInsert_ne_nil (x : String) (l : List String) : sortedInsert x l ≠ [] := by
  cases l with
  | nil => simp [sortedInsert]
  | cons y ys =>
    simp only [sortedInsert]
    split
    · simp
    · split <;> simp

theorem mem_sortedInsert (x : String) (l : List String) (y : String) :
    y ∈ sortedInsert x l ↔ y = x ∨ y ∈ l := by
  induction l with
  | nil => simp [sortedInsert]
  | cons z zs ih =>
    simp only [sortedInsert]
    split
    · simp [List.mem_cons]
    · rename_i hlt
      split
      · rename_i heq
        subst heq
        simp [List.mem_cons]
      · simp [List.mem_cons, ih]
        tauto

theorem pairwise_sortedInsert (x : String) (l : List String)
    (h : l.Pairwise strLt) : (sortedInsert x l).Pairwise strLt := by
  induction l with
  | nil => simp [sortedInsert]
  | cons z zs ih =>
    rcases List.pairwise_cons.mp h with ⟨hz, hzs⟩
    simp only [sortedInsert]
    split
    · rename_i hlt
      refine List.pairwise_cons.mpr ⟨?_, h⟩
      intro w hw
      rcases List.mem_cons.mp hw with hw | hw
      · subst hw; exact hlt
      · exact strLt_trans hlt (hz w hw)
    · rename_i hlt
      split
      · exact h
      · rename_i hne
        refine List.pairwise_cons.mpr ⟨?_, ih hzs⟩
        intro w hw
        rcases (mem_sortedInsert x zs w).mp hw with hw | hw
        · subst hw
          exact strLt_total hlt hne
        · exact hz w hw

theorem pairwise_foldl_sortedInsert (l : List String) (acc : List String)
    (hacc : acc.Pairwise strLt) :
    (l.foldl (fun a x => sortedInsert x a) acc).Pairwise strLt := by
  induction l generalizing acc with
  | nil => simpa using hacc
  | cons z zs ih => exact ih (sortedInsert z acc) (pairwise_sortedInsert z acc hacc)

theorem pairwise_sortedKeys (l : List String) : (sortedKeys l).Pairwise strLt :=
  pairwise_foldl_sortedInsert l [] (by simp)

theorem nodup_sortedKeys (l : List String) : (sortedKeys l).Nodup := by
  refine List.Pairwise.imp ?_ (pairwise_sortedKeys l)
  intro a b hab he
  subst he
  exact strLt_irrefl a hab

theorem mem_foldl_sortedInsert (l : List String) (acc : List String) (y : String) :
    y ∈ l.foldl (fun a x => sortedInsert x a) acc ↔ y ∈ acc ∨ y ∈ l := by
  induction l generalizing acc with
  | nil => simp
  | cons z zs ih =>
    simp only [List.foldl_cons, ih, mem_sortedInsert, List.mem_cons]
    tauto

theorem mem_sortedKeys (l : List String) (y : String) :
    y ∈ sortedKeys l ↔ y ∈ l := by
  simp [sortedKeys, mem_foldl_sortedInsert]

theorem sortedKeys_ne_nil (l : List String) (h : l ≠ []) : sortedKeys l ≠ [] := by
  intro hempty
  rcases List.exists_mem_of_ne_nil l h with ⟨x, hx⟩
  have := (mem_sortedKeys l x).mpr hx
  rw [hempty] at this
  exact absurd this (List.not_mem_nil x)

theorem idxOf_lt_length (x : String) (l : List String) (h : x ∈ l) :
    idxOf x l < l.length := by
  induction l with
  | nil => cases h
  | cons y ys ih =>
    simp only [idxOf]
    split
    · simp
    · rename_i hne
      have hx : x ∈ ys := by
        rcases List.mem_cons.mp h with h1 | h1
        · exact absurd h1.symm hne
        · exact h1
      simpa [Nat.succ_lt_succ_iff] using ih hx

theorem idxOf_get (l : List String) (hnd : l.Nodup) (i : Nat) (hi : i < l.length) :
    idxOf (l.get ⟨i, hi⟩) l = i := by
  induction l generalizing i with
  | nil => cases hi
  | cons y ys ih =>
    rcases List.nodup_cons.mp hnd with ⟨hy, hys⟩
    cases i with
    | zero => simp [idxOf]
    | succ j =>
      have hj : j < ys.length := Nat.lt_of_succ_lt_succ hi
      have hmem : ys.get ⟨j, hj⟩ ∈ ys := ys.get_mem j hj
      have hne : y ≠ ys.get ⟨j, hj⟩ := fun he => hy (he ▸ hmem)
      show idxOf ((y :: ys).get ⟨j + 1, hi⟩) (y :: ys) = j + 1
      have hget : (y :: ys).get ⟨j + 1, hi⟩ = ys.get ⟨j, hj⟩ := rfl
      rw [hget]
      show (if y = ys.get ⟨j, hj⟩ then 0 else idxOf (ys.get ⟨j, hj⟩) ys + 1) = j + 1
      rw [if_neg hne, ih hys j hj]

theorem mem_insDescBy {α : Type} (f : α → ℚ) (x : α) (l : List α) (y : α) :
    y ∈ insDescBy f x l ↔ y = x ∨ y ∈ l := by
  induction l with
  | nil => simp [insDescBy]
  | cons z zs ih =>
    simp only [insDescBy]
    split
    · simp [List.mem_cons]
    · simp [List.mem_cons, ih]
      tauto

theorem mem_foldl_insDescBy {α : Type} (f : α → ℚ) (l acc : List α) (y : α) :
    y ∈ l.foldl (fun a x => insDescBy f x a) acc ↔ y ∈ acc ∨ y ∈ l := by
  induction l generalizing acc with
  | nil => simp
  | cons z zs ih =>
    simp only [List.foldl_cons, ih, mem_insDescBy, List.mem_cons]
    tauto

theorem mem_sortDescBy {α : Type} (f : α → ℚ) (l : List α) (y : α) :
    y ∈ sortDescBy f l ↔ y ∈ l := by
  simp [sortDescBy, mem_foldl_insDescBy]

theorem all_filter_self (p : SimpleStoreInfo → Bool) (l : List SimpleStoreInfo) :
    (l.filter p).all p = true := by
  simp only [List.all_eq_true]
  intro a ha
  exact (List.mem_filter.mp ha).2

theorem zipWith_getD (f : ℚ → ℚ → ℚ) (a b : List ℚ) (i : Nat)
    (hi : i < (List.zipWith f a b).length) (d da db : ℚ) :
    (List.zipWith f a b).getD i d = f (a.getD i da) (b.getD i db) := by
  induction a generalizing b i with
  | nil => simp at hi
  | cons x xs ih =>
    cases b with
    | nil => simp at hi
    | cons y ys =>
      cases i with
      | zero => simp
      | succ j =>
        simp only [List.zipWith_cons_cons, List.length_cons] at hi
        simpa using ih ys j (Nat.lt_of_succ_lt_succ hi)

theorem sin_sq_neg (x : ℝ) : Real.sin (-x) ^ 2 = Real.sin x ^ 2 := by
  rw [Real.sin_neg]
  ring

theorem hav_sym_core (p q u v : ℝ) :
    Real.sin ((u - p) / 2) ^ 2 + Real.cos p * Real.cos u * Real.sin ((v - q) / 2) ^ 2
      = Real.sin ((p - u) / 2) ^ 2 + Real.cos u * Real.cos p * Real.sin ((q - v) / 2) ^ 2 := by
  have h1 : (u - p) / 2 = -((p - u) / 2) := by ring
  have h2 : (v - q) / 2 = -((q - v) / 2) := by ring
  rw [h1, h2, sin_sq_neg, sin_sq_neg]
  ring

/-! ## Claim theorems -/

/-- C9: the haversine distance is symmetric in its two coordinate pairs,
and the distance from a point to itself is 0. -/
theorem fv_C9 (lat1 lon1 lat2 lon2 : ℝ) :
    haversine_distance lat1 lon1 lat2 lon2 = haversine_distance lat2 lon2 lat1 lon1 ∧
    haversine_distance lat1 lon1 lat1 lon1 = 0 := by
  constructor
  · simp only [haversine_distance]
    rw [hav_sym_core]
  · simp only [haversine_distance, sub_self, zero_div, Real.sin_zero]
    norm_num [atan2, round2, Real.sqrt_zero, Real.sqrt_one, Real.arctan_zero]

/-- Degenerate filter shape shared by the four non-AI categories of the
orchestrator: whatever the pipeline outcome, the category's final list
satisfies the AI-protection predicate. -/
theorem all_filter_match (r : CatOutcome) (p : SimpleStoreInfo → Bool) :
    (match r with
      | .error _ => ([] : List SimpleStoreInfo)
      | .ok raw => raw.filter p).all p = true := by
  cases r with
  | error e => simp
  | ok raw => exact all_filter_self p raw

/-- C4: a store address chosen by the AI/collaborative category appears in
no other category's output of the final response. -/
theorem fv_C4 (uid : String) (cfR eventR newR popularR : CatOutcome)
    (nearbyR : List String → CatOutcome) :
    ((recommend_stores_core uid cfR eventR newR popularR nearbyR).recommendations.drop 1).all
      (fun cat => cat.stores.all (fun s =>
        decide (s.address ∉
          aiAddresses (recommend_stores_core uid cfR eventR newR popularR nearbyR)))) = true := by
  simp only [recommend_stores_core, aiAddresses, List.headD, List.drop, List.all_cons,
    List.all_nil, Bool.and_true, Bool.and_eq_true]
  refine ⟨?_, ?_, ?_, ?_⟩ <;> exact all_filter_match _ _

/-- C7: a category pipeline that raises is equivalent to one that returns
no stores: that category's entry is empty, every other category's entry is
unchanged, and the response still succeeds.  Stated for each of the five
categories, together with the fact that the response always carries
`success = true`. -/
theorem fv_C7 (uid e : String) (cfR eventR newR popularR : CatOutcome)
    (nearbyR : List String → CatOutcome) :
    (recommend_stores_core uid (.error e) eventR newR popularR nearbyR
        = recommend_stores_core uid (.ok []) eventR newR popularR nearbyR
      ∧ ((recommend_stores_core uid (.error e) eventR newR popularR nearbyR).recommendations.getD
          0 ⟨"", []⟩).stores = [])
    ∧ (recommend_stores_core uid cfR (.error e) newR popularR nearbyR
        = recommend_stores_core uid cfR (.ok []) newR popularR nearbyR
      ∧ ((recommend_stores_core uid cfR (.error e) newR popularR nearbyR).recommendations.getD
          1 ⟨"", []⟩).stores = [])
    ∧ (recommend_stores_core uid cfR eventR (.error e) popularR nearbyR
        = recommend_stores_core uid cfR eventR (.ok []) popularR nearbyR
      ∧ ((recommend_stores_core uid cfR eventR (.error e) popularR nearbyR).recommendations.getD
          2 ⟨"", []⟩).stores = [])
    ∧ (recommend_stores_core uid cfR eventR newR (.error e) nearbyR
        = recommend_stores_core uid cfR eventR newR (.ok []) nearbyR
      ∧ ((recommend_stores_core uid cfR eventR newR (.error e) nearbyR).recommendations.getD
          3 ⟨"", []⟩).stores = [])
    ∧ (recommend_stores_core uid cfR eventR newR popularR (fun _ => .error e)
        = recommend_stores_core uid cfR eventR newR popularR (fun _ => .ok [])
      ∧ ((recommend_stores_core uid cfR eventR newR popularR
          (fun _ => .error e)).recommendations.getD 4 ⟨"", []⟩).stores = [])
    ∧ (recommend_stores_core uid cfR eventR newR popularR nearbyR).success = true := by
  refine ⟨⟨?_, ?_⟩, ⟨?_, ?_⟩, ⟨?_, ?_⟩, ⟨?_, ?_⟩, ⟨?_, ?_⟩, ?_⟩ <;>
    simp [recommend_stores_core, catchResult]

/-- Members collected by the CF candidate loop either come from the
accumulator or lie within 10 km. -/
theorem cfCollect_dist (catalog : List CatStore) (hav : HavFn) (ulat ulon : ℚ)
    (recs : List (String × ℚ)) (acc : List StoreInfo) :
    ∀ c ∈ cfCollect catalog hav ulat ulon recs acc, c ∈ acc ∨ c.distance_km ≤ 10 := by
  induction recs generalizing acc with
  | nil =>
    intro c hc
    simp only [cfCollect, List.mem_reverse] at hc
    exact Or.inl hc
  | cons r rs ih =>
    rcases r with ⟨sid, p⟩
    intro c hc
    simp only [cfCollect] at hc
    cases hgs : getStoreById catalog sid with
    | none =>
      rw [hgs] at hc
      exact ih acc c hc
    | some st =>
      rw [hgs] at hc
      dsimp only at hc
      by_cases hd : 10 < hav ulat ulon st.latitude st.longitude
      · rw [if_pos hd] at hc
        exact ih acc c hc
      · rw [if_neg hd] at hc
        by_cases h5 : 5 ≤ (⟨st.name, st.address, hav ulat ulon st.latitude st.longitude,
            p * 10 - hav ulat ulon st.latitude st.longitude * 1⟩ :: acc : List StoreInfo).length
        · rw [if_pos h5] at hc
          rcases List.mem_cons.mp (List.mem_reverse.mp hc) with hc | hc
          · right
            rw [hc]
            exact le_of_not_lt hd
          · exact Or.inl hc
        · rw [if_neg h5] at hc
          rcases ih _ c hc with hc | hc
          · rcases List.mem_cons.mp hc with hc | hc
            · right
              rw [hc]
              exact le_of_not_lt hd
            · exact Or.inl hc
          · exact Or.inr hc

/-- C6: every store of the nearby category lies within 5 km of the user,
and every store of the AI/collaborative category lies within 10 km. -/
theorem fv_C6 (catalog : List CatStore) (hav : HavFn) (ulat ulon : ℚ)
    (recommended : List String) (cf_recs : List (String × ℚ)) :
    ((recommend_nearby_full catalog hav ulat ulon recommended).all
      (fun c => decide (c.distance_km ≤ 5)) = true) ∧
    ((recommend_cf_full catalog hav ulat ulon cf_recs).all
      (fun c => decide (c.distance_km ≤ 10)) = true) := by
  constructor
  · simp only [List.all_eq_true, decide_eq_true_eq]
    intro c hc
    have hc2 : c ∈ sortDescBy (fun c => c.recommendation_score)
        (catalog.filterMap (fun st =>
          if st.address ∈ recommended then none
          else
            if 5 < hav ulat ulon st.latitude st.longitude then none
            else some (⟨st.name, st.address, hav ulat ulon st.latitude st.longitude,
              30 - hav ulat ulon st.latitude st.longitude * 5 + st.rating * 2⟩ : StoreInfo))) :=
      List.mem_of_mem_take (by simpa [recommend_nearby_full] using hc)
    have hc3 := (mem_sortDescBy _ _ c).mp hc2
    rcases List.mem_filterMap.mp hc3 with ⟨st, _, hst⟩
    by_cases h1 : st.address ∈ recommended
    · rw [if_pos h1] at hst
      cases hst
    · rw [if_neg h1] at hst
      by_cases h2 : 5 < hav ulat ulon st.latitude st.longitude
      · rw [if_pos h2] at hst
        cases hst
      · rw [if_neg h2] at hst
        have := Option.some.inj hst
        rw [← this]
        exact le_of_not_lt h2
  · simp only [List.all_eq_true, decide_eq_true_eq]
    intro c hc
    have hc2 : c ∈ sortDescBy (fun c => c.recommendation_score)
        (cfCollect catalog hav ulat ulon cf_recs []) :=
      List.mem_of_mem_take (by simpa [recommend_cf_full] using hc)
    have hc3 := (mem_sortDescBy _ _ c).mp hc2
    rcases cfCollect_dist catalog hav ulat ulon cf_recs [] c hc3 with hc4 | hc4
    · cases hc4
    · exact hc4

/-- Length bound for one non-AI category entry of the orchestrator. -/
theorem catOutcome_len (r : CatOutcome) (p : SimpleStoreInfo → Bool)
    (h : ∀ l, r = .ok l → l.length ≤ 2) :
    (match r with
      | .error _ => ([] : List SimpleStoreInfo)
      | .ok raw => raw.filter p).length ≤ 2 := by
  cases r with
  | error e => simp
  | ok raw => exact le_trans (List.length_filter_le _ _) (h raw rfl)

/-- C8: each category pipeline returns at most 2 stores (as name/address
pairs), and the orchestrator, fed category outcomes that respect that
bound, produces exactly 5 category entries in the fixed order AI, event,
new, popular, nearby, each with at most 2 stores, plus `success = true`. -/
theorem fv_C8 :
    (∀ catalog hav ulat ulon eventData,
      (recommend_event_stores catalog hav ulat ulon eventData).length ≤ 2)
  ∧ (∀ catalog hav ulat ulon current_day newData,
      (recommend_new_stores catalog hav ulat ulon current_day newData).length ≤ 2)
  ∧ (∀ catalog hav ulat ulon popularData,
      (recommend_popular_stores catalog hav ulat ulon popularData).length ≤ 2)
  ∧ (∀ catalog hav ulat ulon recommended,
      (recommend_nearby_stores catalog hav ulat ulon recommended).length ≤ 2)
  ∧ (∀ catalog hav ulat ulon cf_recs,
      (recommend_cf_stores catalog hav ulat ulon cf_recs).length ≤ 2)
  ∧ (∀ uid cfR eventR newR popularR nearbyR,
      (∀ l, cfR = Except.ok l → l.length ≤ 2) →
      (∀ l, eventR = Except.ok l → l.length ≤ 2) →
      (∀ l, newR = Except.ok l → l.length ≤ 2) →
      (∀ l, popularR = Except.ok l → l.length ≤ 2) →
      (∀ a l, nearbyR a = Except.ok l → l.length ≤ 2) →
      (recommend_stores_core uid cfR eventR newR popularR nearbyR).recommendations.map
          (fun c => c.category)
        = ["AI 추천 가게", "이벤트 참여 가게", "신규 가입 가게", "인기 가게", "가까운 가게"]
      ∧ (recommend_stores_core uid cfR eventR newR popularR nearbyR).recommendations.length = 5
      ∧ (recommend_stores_core uid cfR eventR newR popularR nearbyR).success = true
      ∧ (recommend_stores_core uid cfR eventR newR popularR nearbyR).recommendations.all
          (fun cat => decide (cat.stores.length ≤ 2)) = true) := by
  refine ⟨?_, ?_, ?_, ?_, ?_, ?_⟩
  · intro catalog hav ulat ulon eventData
    simp only [recommend_event_stores, recommend_event_full, List.length_map]
    exact List.length_take_le 2 _
  · intro catalog hav ulat ulon current_day newData
    simp only [recommend_new_stores, recommend_new_full, List.length_map]
    exact List.length_take_le 2 _
  · intro catalog hav ulat ulon popularData
    simp only [recommend_popular_stores, recommend_popular_full, List.length_map]
    exact List.length_take_le 2 _
  · intro catalog hav ulat ulon recommended
    simp only [recommend_nearby_stores, recommend_nearby_full, List.length_map]
    exact List.length_take_le 2 _
  · intro catalog hav ulat ulon cf_recs
    simp only [recommend_cf_stores, recommend_cf_full, List.length_map]
    exact List.length_take_le 2 _
  · intro uid cfR eventR newR popularR nearbyR hcf he hn hp hnb
    have hcf2 : (catchResult cfR).length ≤ 2 := by
      cases cfR with
      | error e2 => simp [catchResult]
      | ok l => simpa [catchResult] using hcf l rfl
    refine ⟨rfl, rfl, rfl, ?_⟩
    simp only [recommend_stores_core, List.all_cons, List.all_nil, Bool.and_true,
      Bool.and_eq_true, decide_eq_true_eq]
    exact ⟨hcf2, catOutcome_len _ _ he, catOutcome_len _ _ hn, catOutcome_len _ _ hp,
      catOutcome_len _ _ (fun l => hnb _ l)⟩

/-- Witness for C8 at a concrete request where every pipeline succeeds
with the empty list. -/
theorem fv_C8_w :
    (recommend_stores_core "u1" (.ok []) (.ok []) (.ok []) (.ok [])
        (fun _ => .ok [])).recommendations.map (fun c => c.category)
      = ["AI 추천 가게", "이벤트 참여 가게", "신규 가입 가게", "인기 가게", "가까운 가게"]
    ∧ (recommend_stores_core "u1" (.ok []) (.ok []) (.ok []) (.ok [])
        (fun _ => .ok [])).recommendations.length = 5
    ∧ (recommend_stores_core "u1" (.ok []) (.ok []) (.ok []) (.ok [])
        (fun _ => .ok [])).success = true
    ∧ (recommend_stores_core "u1" (.ok []) (.ok []) (.ok []) (.ok [])
        (fun _ => .ok [])).recommendations.all
        (fun cat => decide (cat.stores.length ≤ 2)) = true :=
  fv_C8.2.2.2.2.2 "u1" (.ok []) (.ok []) (.ok []) (.ok []) (fun _ => .ok [])
    (fun l h => by injection h with h2; rw [← h2]; decide)
    (fun l h => by injection h with h2; rw [← h2]; decide)
    (fun l h => by injection h with h2; rw [← h2]; decide)
    (fun l h => by injection h with h2; rw [← h2]; decide)
    (fun a l h => by injection h with h2; rw [← h2]; decide)

/-- C10: for the event, new and popular categories the AI-protection
filter is applied to the already-truncated top-2 list, and on a concrete
request where the top event candidate is AI-protected the category
returns a single store even though a third, unprotected candidate
exists (deduplicating before truncation would return two). -/
theorem fv_C10 :
    (∀ uid catalog hav ulat ulon eventData cfR newR popularR nearbyR,
      ((recommend_stores_core uid cfR
          (.ok (recommend_event_stores catalog hav ulat ulon eventData)) newR popularR
          nearbyR).recommendations.getD 1 ⟨"", []⟩).stores
        = (recommend_event_stores catalog hav ulat ulon eventData).filter
            (fun s => decide (s.address ∉ (catchResult cfR).map (fun t => t.address))))
  ∧ (∀ uid catalog hav ulat ulon current_day newData cfR eventR popularR nearbyR,
      ((recommend_stores_core uid cfR eventR
          (.ok (recommend_new_stores catalog hav ulat ulon current_day newData)) popularR
          nearbyR).recommendations.getD 2 ⟨"", []⟩).stores
        = (recommend_new_stores catalog hav ulat ulon current_day newData).filter
            (fun s => decide (s.address ∉ (catchResult cfR).map (fun t => t.address))))
  ∧ (∀ uid catalog hav ulat ulon popularData cfR eventR newR nearbyR,
      ((recommend_stores_core uid cfR eventR newR
          (.ok (recommend_popular_stores catalog hav ulat ulon popularData))
          nearbyR).recommendations.getD 3 ⟨"", []⟩).stores
        = (recommend_popular_stores catalog hav ulat ulon popularData).filter
            (fun s => decide (s.address ∉ (catchResult cfR).map (fun t => t.address))))
  ∧ (((recommend_stores_core "u1" (.ok [⟨"n1", "a1"⟩])
        (.ok (recommend_event_stores catalogX havZero 0 0 eventDataX)) (.ok []) (.ok [])
        (fun _ => .ok [])).recommendations.getD 1 ⟨"", []⟩).stores
      = [⟨"n2", "a2"⟩]
    ∧ eventDedupFirst ["a1"] catalogX havZero 0 0 eventDataX
      = [⟨"n2", "a2"⟩, ⟨"n3", "a3"⟩]) := by
  refine ⟨?_, ?_, ?_, ?_, ?_⟩
  · intro uid catalog hav ulat ulon eventData cfR newR popularR nearbyR
    simp [recommend_stores_core]
  · intro uid catalog hav ulat ulon current_day newData cfR eventR popularR nearbyR
    simp [recommend_stores_core]
  · intro uid catalog hav ulat ulon popularData cfR eventR newR nearbyR
    simp [recommend_stores_core]
  · have e21 : ("a2" = "a1") = False := by simp
    have e31 : ("a3" = "a1") = False := by simp
    have e12 : ("a1" = "a2") = False := by simp
    have e32 : ("a3" = "a2") = False := by simp
    have e13 : ("a1" = "a3") = False := by simp
    have e23 : ("a2" = "a3") = False := by simp
    norm_num [recommend_stores_core, catchResult, recommend_event_stores, recommend_event_full,
      eventCandidates, getStoreByAddress, catalogX, havZero, eventDataX, sortDescBy, insDescBy,
      StoreInfo.toSimple, List.filter_cons, List.filter_nil, List.filterMap_cons,
      List.filterMap_nil, List.foldl_cons, List.foldl_nil, List.take_succ_cons, List.take_nil,
      List.map_cons, List.map_nil, e21, e31, e12, e32, e13, e23]
  · have e21 : ("a2" = "a1") = False := by simp
    have e31 : ("a3" = "a1") = False := by simp
    have e12 : ("a1" = "a2") = False := by simp
    have e32 : ("a3" = "a2") = False := by simp
    have e13 : ("a1" = "a3") = False := by simp
    have e23 : ("a2" = "a3") = False := by simp
    norm_num [eventDedupFirst, eventCandidates, getStoreByAddress, catalogX, havZero,
      eventDataX, sortDescBy, insDescBy, StoreInfo.toSimple, List.filter_cons, List.filter_nil,
      List.filterMap_cons, List.filterMap_nil, List.foldl_cons, List.foldl_nil,
      List.take_succ_cons, List.take_nil, List.map_cons, List.map_nil, e21, e31, e12, e32,
      e13, e23]

/-- Characterization of `train` on a fresh model and non-empty data. -/
theorem train_spec (visits : List Visit) (h : visits ≠ []) :
    CFModel.train CFModel.init visits =
      { user_item_matrix := some ⟨sortedKeys (visits.map (fun v => v.user_id)),
          sortedKeys (visits.map (fun v => v.store_id)),
          (sortedKeys (visits.map (fun v => v.user_id))).map (fun u =>
            (sortedKeys (visits.map (fun v => v.store_id))).map
              (fun s => cellValue visits u s))⟩,
        user_ids := sortedKeys (visits.map (fun v => v.user_id)),
        store_ids := sortedKeys (visits.map (fun v => v.store_id)),
        is_trained := true } := by
  have hu : sortedKeys (visits.map (fun v => v.user_id)) ≠ [] :=
    sortedKeys_ne_nil _ (by simpa using h)
  have hs : sortedKeys (visits.map (fun v => v.store_id)) ≠ [] :=
    sortedKeys_ne_nil _ (by simpa using h)
  have hne : visits.isEmpty = false := by
    cases visits with
    | nil => exact absurd rfl h
    | cons v vs => rfl
  have hdf : (DFrame.mk (sortedKeys (visits.map (fun v => v.user_id)))
      (sortedKeys (visits.map (fun v => v.store_id)))
      ((sortedKeys (visits.map (fun v => v.user_id))).map (fun u =>
        (sortedKeys (visits.map (fun v => v.store_id))).map
          (fun s => cellValue visits u s)))).isEmpty = false := by
    simp only [DFrame.isEmpty, Bool.or_eq_false_iff]
    constructor
    · cases hk : sortedKeys (visits.map (fun v => v.user_id)) with
      | nil => exact absurd hk hu
      | cons a l => rfl
    · cases hk : sortedKeys (visits.map (fun v => v.store_id)) with
      | nil => exact absurd hk hs
      | cons a l => rfl
  simp only [CFModel.train, create_user_item_matrix, hne, Bool.false_eq_true, if_false, hdf]

/-- Folding `sortedInsert` over a constant list yields the singleton. -/
theorem foldl_sortedInsert_const (u0 : String) (l : List String) (acc : List String)
    (hall : ∀ x ∈ l, x = u0) (hacc : acc = [] ∨ acc = [u0]) :
    l.foldl (fun a x => sortedInsert x a) acc = []
      ∨ l.foldl (fun a x => sortedInsert x a) acc = [u0] := by
  induction l generalizing acc with
  | nil => simpa using hacc
  | cons z zs ih =>
    have hz : z = u0 := hall z (List.mem_cons_self z zs)
    subst hz
    have hstep : sortedInsert z acc = [z] ∨ sortedInsert z acc = [z] := by
      rcases hacc with hacc | hacc
      · subst hacc; simp [sortedInsert]
      · subst hacc
        left
        simp [sortedInsert, strLt_irrefl z]
    rcases hstep with hstep | hstep <;>
      exact ih (sortedInsert z acc) (fun x hx => hall x (List.mem_cons_of_mem _ hx))
        (Or.inr hstep)

theorem sortedKeys_const (u0 : String) (l : List String) (h : l ≠ [])
    (hall : ∀ x ∈ l, x = u0) : sortedKeys l = [u0] := by
  rcases foldl_sortedInsert_const u0 l [] hall (Or.inl rfl) with hk | hk
  · exact absurd hk (sortedKeys_ne_nil l h)
  · exact hk

/-- C5: a model trained on records that all carry one single user id has
fewer than 2 users, so every prediction call, for every target user,
top-N and excludeVisited flag, returns exactly the popularity fallback. -/
theorem fv_C5 (visits : List Visit) (u0 : String) (hne : visits ≠ [])
    (hall : ∀ v ∈ visits, v.user_id = u0)
    (uid : String) (n : Nat) (ev : Bool) (oracle : List (String × ℚ)) :
    (CFModel.train CFModel.init visits).recommend_stores oracle uid n ev
      = some ((CFModel.train CFModel.init visits).recommend_for_new_user n) := by
  have hk : sortedKeys (visits.map (fun v => v.user_id)) = [u0] := by
    refine sortedKeys_const u0 _ (by simpa using hne) ?_
    intro x hx
    rcases List.mem_map.mp hx with ⟨v, hv, hvx⟩
    rw [← hvx]
    exact hall v hv
  rw [train_spec visits hne]
  simp [CFModel.recommend_stores, hk]

/-- Witness for C5 at a concrete one-user visit list. -/
theorem fv_C5_w :
    (CFModel.train CFModel.init [⟨"u1", "sA", 5⟩]).recommend_stores [] "zz" 7 false
      = some ((CFModel.train CFModel.init [⟨"u1", "sA", 5⟩]).recommend_for_new_user 7) :=
  fv_C5 [⟨"u1", "sA", 5⟩] "u1" (by simp)
    (by
      intro v hv
      rw [List.mem_singleton] at hv
      subst hv
      rfl)
    "zz" 7 false []

/-- C3 (failing input): re-training a previously trained engine with an
empty visit sequence leaves the stale `is_trained = true` flag in place
(the state does not return to Untrained), and the subsequent prediction
call raises an IndexError (modelled as `none`) instead of returning an
empty result. -/
theorem fv_C3_bug :
    ((CFModel.train CFModel.init visitsC3).train []).is_trained = true
  ∧ ((CFModel.train CFModel.init visitsC3).train []).recommend_stores [] "u1" 10 true
      = none := by
  decide

/-- C1 (counterexample): with a single trained user the < 2-users
popularity fallback fires, and with `excludeVisited = true` the engine
still returns store `sA`, whose matrix cell for the target user is 5 >
0 — the fallback paths do not exclude visited stores. -/
theorem fv_C1_cex :
    ((CFModel.train CFModel.init visitsC1).recommend_stores [] "u1" 10 true).getD []
        = [("sA", 5)]
  ∧ (0 : ℚ) < (CFModel.train CFModel.init visitsC1).cell "u1" "sA" := by
  constructor
  · norm_num [visitsC1, CFModel.train, CFModel.init, create_user_item_matrix, sortedKeys,
      sortedInsert, cellValue, CFModel.recommend_stores, CFModel.recommend_for_new_user,
      DFrame.isEmpty, DFrame.colSums, sortDescBy, insDescBy, idxOf, List.range_succ,
      List.filter_cons, List.filter_nil, List.filterMap_cons, List.filterMap_nil,
      List.foldl_cons, List.foldl_nil, List.take_succ_cons, List.take_nil, List.map_cons,
      List.map_nil]
  · norm_num [visitsC1, CFModel.train, CFModel.init, create_user_item_matrix, sortedKeys,
      sortedInsert, cellValue, CFModel.cell, DFrame.isEmpty, idxOf, List.filter_cons,
      List.filter_nil, List.foldl_cons, List.foldl_nil, List.map_cons, List.map_nil]

/-- C2 (counterexample): the pivot table sorts its row labels, so for
visit data listing user `u2` before `u1` the matrix rows are
`["u1", "u2"]`, not the first-seen order `["u2", "u1"]`. -/
theorem fv_C2_cex :
    (CFModel.train CFModel.init visitsC2).user_ids = ["u1", "u2"]
  ∧ firstSeenKeys (visitsC2.map (fun v => v.user_id)) = ["u2", "u1"]
  ∧ (CFModel.train CFModel.init visitsC2).user_ids
      ≠ firstSeenKeys (visitsC2.map (fun v => v.user_id)) := by
  decide

theorem getD_of_get? {α : Type} (l : List α) (n : Nat) (x d : α) (h : l.get? n = some x) :
    l.getD n d = x := by
  induction l generalizing n with
  | nil => simp at h
  | cons y ys ih =>
    cases n with
    | zero =>
      have hx : y = x := by simpa using h
      simpa using hx
    | succ m =>
      simp only [List.get?_cons_succ] at h
      simpa using ih m h

theorem getD_of_lt {α : Type} (l : List α) (n : Nat) (d : α) (h : n < l.length) :
    l.getD n d = l.get ⟨n, h⟩ := by
  induction l generalizing n with
  | nil => simp at h
  | cons y ys ih =>
    cases n with
    | zero => rfl
    | succ m => simpa using ih m (Nat.lt_of_succ_lt_succ h)

theorem getD_of_le {α : Type} (l : List α) (n : Nat) (d : α) (h : l.length ≤ n) :
    l.getD n d = d := by
  induction l generalizing n with
  | nil => simp
  | cons y ys ih =>
    cases n with
    | zero => simp at h
    | succ m => simpa using ih m (Nat.le_of_succ_le_succ h)

/-- Cells of the pivot table for pairs that never occur in the visit data
are the fill value 0. -/
theorem cellValue_absent (visits : List Visit) (u s : String)
    (h : visits.any (fun v => v.user_id = u && v.store_id = s) = false) :
    cellValue visits u s = 0 := by
  have hf : visits.filter (fun v => v.user_id = u && v.store_id = s) = [] := by
    rw [List.filter_eq_nil_iff]
    intro v hv
    rw [List.any_eq_false] at h
    exact h v hv
  simp [cellValue, hf]

/-- C2 (amended): for non-empty visit data the trained matrix has one row
per distinct user id in ascending sorted order and one column per
distinct store id in ascending sorted order (pandas sorts pivot-table
labels), absent cells are filled with 0, and the stored
`user_ids`/`store_ids` label lists are exactly the matrix's own row and
column labels in that order. -/
theorem fv_C2_sorted (visits : List Visit) (hne : visits ≠ []) :
    List.Pairwise strLt (CFModel.train CFModel.init visits).user_ids
  ∧ List.Pairwise strLt (CFModel.train CFModel.init visits).store_ids
  ∧ ((CFModel.train CFModel.init visits).user_ids.all
      (fun u => decide (u ∈ visits.map (fun v => v.user_id))) = true)
  ∧ ((visits.map (fun v => v.user_id)).all
      (fun u => decide (u ∈ (CFModel.train CFModel.init visits).user_ids)) = true)
  ∧ ((CFModel.train CFModel.init visits).store_ids.all
      (fun s => decide (s ∈ visits.map (fun v => v.store_id))) = true)
  ∧ ((visits.map (fun v => v.store_id)).all
      (fun s => decide (s ∈ (CFModel.train CFModel.init visits).store_ids)) = true)
  ∧ (CFModel.train CFModel.init visits).user_item_matrix
      = some ⟨(CFModel.train CFModel.init visits).user_ids,
          (CFModel.train CFModel.init visits).store_ids,
          (CFModel.train CFModel.init visits).user_ids.map (fun u =>
            (CFModel.train CFModel.init visits).store_ids.map
              (fun s => cellValue visits u s))⟩
  ∧ ((CFModel.train CFModel.init visits).user_ids.all (fun u =>
      (CFModel.train CFModel.init visits).store_ids.all (fun s =>
        visits.any (fun v => v.user_id = u && v.store_id = s)
          || decide (cellValue visits u s = 0))) = true) := by
  have hT := train_spec visits hne
  refine ⟨?_, ?_, ?_, ?_, ?_, ?_, ?_, ?_⟩
  · rw [hT]
    exact pairwise_sortedKeys _
  · rw [hT]
    exact pairwise_sortedKeys _
  · rw [hT]
    simp only [List.all_eq_true, decide_eq_true_eq]
    intro u hu
    exact (mem_sortedKeys _ u).mp hu
  · rw [hT]
    simp only [List.all_eq_true, decide_eq_true_eq]
    intro u hu
    exact (mem_sortedKeys _ u).mpr hu
  · rw [hT]
    simp only [List.all_eq_true, decide_eq_true_eq]
    intro s hs
    exact (mem_sortedKeys _ s).mp hs
  · rw [hT]
    simp only [List.all_eq_true, decide_eq_true_eq]
    intro s hs
    exact (mem_sortedKeys _ s).mpr hs
  · rw [hT]
  · rw [hT]
    simp only [List.all_eq_true]
    intro u hu s hs
    cases hb : visits.any (fun v => v.user_id = u && v.store_id = s) with
    | true => simp [hb]
    | false => simp [hb, cellValue_absent visits u s hb]

/-- Witness for C2 (amended) at the concrete visit data of the
counterexample. -/
theorem fv_C2_sorted_w :
    List.Pairwise strLt (CFModel.train CFModel.init visitsC2).user_ids
  ∧ List.Pairwise strLt (CFModel.train CFModel.init visitsC2).store_ids
  ∧ ((CFModel.train CFModel.init visitsC2).user_ids.all
      (fun u => decide (u ∈ visitsC2.map (fun v => v.user_id))) = true)
  ∧ ((visitsC2.map (fun v => v.user_id)).all
      (fun u => decide (u ∈ (CFModel.train CFModel.init visitsC2).user_ids)) = true)
  ∧ ((CFModel.train CFModel.init visitsC2).store_ids.all
      (fun s => decide (s ∈ visitsC2.map (fun v => v.store_id))) = true)
  ∧ ((visitsC2.map (fun v => v.store_id)).all
      (fun s => decide (s ∈ (CFModel.train CFModel.init visitsC2).store_ids)) = true)
  ∧ (CFModel.train CFModel.init visitsC2).user_item_matrix
      = some ⟨(CFModel.train CFModel.init visitsC2).user_ids,
          (CFModel.train CFModel.init visitsC2).store_ids,
          (CFModel.train CFModel.init visitsC2).user_ids.map (fun u =>
            (CFModel.train CFModel.init visitsC2).store_ids.map
              (fun s => cellValue visitsC2 u s))⟩
  ∧ ((CFModel.train CFModel.init visitsC2).user_ids.all (fun u =>
      (CFModel.train CFModel.init visitsC2).store_ids.all (fun s =>
        visitsC2.any (fun v => v.user_id = u && v.store_id = s)
          || decide (cellValue visitsC2 u s = 0))) = true) :=
  fv_C2_sorted visitsC2 (by simp [visitsC2])

/-- Every entry surviving the ranking step under the visited-mask refers
to a store column whose cell for the target user is not positive. -/
theorem rankPositive_excl (store_ids : List String) (p1 uv : List ℚ) (n : Nat)
    (huv : uv.length = store_ids.length) (hnd : store_ids.Nodup) :
    ∀ p ∈ rankPositive store_ids (maskVisited p1 uv) n,
      uv.getD (idxOf p.1 store_ids) 0 ≤ 0 := by
  intro p hp
  rcases List.mem_filterMap.mp hp with ⟨i, hi, hfi⟩
  by_cases hpos : 0 < (maskVisited p1 uv).getD i 0
  · rw [if_pos hpos] at hfi
    have hplen : i < (maskVisited p1 uv).length := by
      by_contra hle
      rw [getD_of_le _ _ _ (Nat.le_of_not_lt hle)] at hpos
      exact absurd hpos (lt_irrefl 0)
    have hlen2 : (maskVisited p1 uv).length = min p1.length uv.length := by
      simp [maskVisited]
    have hiuv : i < uv.length := lt_of_lt_of_le (hlen2 ▸ hplen) (Nat.min_le_right _ _)
    have hiS : i < store_ids.length := huv ▸ hiuv
    have hmask : (maskVisited p1 uv).getD i 0
        = if 0 < uv.getD i 0 then (-1 : ℚ) else p1.getD i 0 :=
      zipWith_getD _ p1 uv i hplen 0 0 0
    have huvle : uv.getD i 0 ≤ 0 := by
      by_contra hlt
      rw [hmask, if_pos (lt_of_not_le hlt)] at hpos
      norm_num at hpos
    have hp1 : p.1 = store_ids.getD i "" := by
      have := Option.some.inj hfi
      rw [← this]
    rw [hp1, getD_of_lt store_ids i "" hiS, idxOf_get store_ids hnd i hiS]
    exact huvle
  · rw [if_neg hpos] at hfi
    cases hfi

/-- Exclusion property of the main similarity path, for any well-formed
trained model state. -/
theorem recommend_excl_general (U S : List String) (rows : List (List ℚ)) (uid : String)
    (oracle : List (String × ℚ)) (n : Nat)
    (h2 : 2 ≤ U.length) (hu : uid ∈ U) (ho : oracle ≠ [])
    (hrlen : rows.length = U.length)
    (hrows : ∀ r ∈ rows, r.length = S.length)
    (hnd : S.Nodup) :
    (((CFModel.mk (some ⟨U, S, rows⟩) U S true).recommend_stores oracle uid n true).getD
        []).all
      (fun p => decide ((CFModel.mk (some ⟨U, S, rows⟩) U S true).cell uid p.1 ≤ 0))
      = true := by
  have hidx : idxOf uid U < U.length := idxOf_lt_length uid U hu
  have hidx2 : idxOf uid U < rows.length := by omega
  obtain ⟨row, hgot⟩ : ∃ row, rows.get? (idxOf uid U) = some row :=
    ⟨rows.get ⟨idxOf uid U, hidx2⟩, List.get?_eq_get hidx2⟩
  have hrowlen : row.length = S.length := hrows row (List.get?_mem hgot)
  have hc1 : ¬(U.length < 2) := by omega
  have hc2 : ¬(uid ∉ U) := not_not_intro hu
  have hsim : (CFModel.mk (some ⟨U, S, rows⟩) U S true).get_similar_users oracle uid
      = some oracle := by
    simp only [CFModel.get_similar_users]
    have hg1 : ¬((true = false) ∨ uid ∉ U) := by
      simp [hu]
    have hg2 : ¬(U.length ≤ 1) := by omega
    rw [if_neg hg1, if_neg hg2, hgot]
  have hoe : ¬(oracle.isEmpty = true) := by
    cases oracle with
    | nil => exact absurd rfl ho
    | cons a l => simp
  simp only [CFModel.recommend_stores]
  rw [if_neg (by simp : ¬((true : Bool) = false)), if_neg hc1, if_neg hc2, hsim]
  dsimp only
  rw [if_neg hoe, hgot]
  rcases hW : weightedRows ⟨U, S, rows⟩ U oracle (List.replicate S.length 0) with _ | predicted0
  · simp
  · dsimp only
    simp only [if_true, Option.getD_some, List.all_eq_true, decide_eq_true_eq]
    intro p hp
    have hcell : (CFModel.mk (some ⟨U, S, rows⟩) U S true).cell uid p.1
        = row.getD (idxOf p.1 S) 0 := by
      simp only [CFModel.cell]
      rw [getD_of_get? rows (idxOf uid U) row [] hgot]
    rw [hcell]
    exact rankPositive_excl S _ row n hrowlen hnd p hp

/-- C1 (amended): on the main similarity path — trained model, at least 2
users, target user known, non-empty similar-user list — a prediction with
`excludeVisited = true` never returns a store whose matrix cell for the
target user is positive.  (The counterexample `fv_C1_cex` shows the
popularity fallback paths do return visited stores.) -/
theorem fv_C1_excl (visits : List Visit) (uid : String) (oracle : List (String × ℚ)) (n : Nat)
    (h2 : 2 ≤ (CFModel.train CFModel.init visits).user_ids.length)
    (hu : uid ∈ (CFModel.train CFModel.init visits).user_ids)
    (ho : oracle ≠ []) :
    (((CFModel.train CFModel.init visits).recommend_stores oracle uid n true).getD []).all
      (fun p => decide ((CFModel.train CFModel.init visits).cell uid p.1 ≤ 0)) = true := by
  have hne : visits ≠ [] := by
    intro hv
    subst hv
    simp [CFModel.train, create_user_item_matrix, CFModel.init, DFrame.isEmpty] at h2
  have hT := train_spec visits hne
  rw [hT] at h2 hu ⊢
  dsimp only at h2 hu
  refine recommend_excl_general _ _ _ uid oracle n h2 hu ho (List.length_map _ _) ?_
    (nodup_sortedKeys _)
  intro r hr
  rcases List.mem_map.mp hr with ⟨u, _, hru⟩
  rw [← hru]
  exact List.length_map _ _

/-- Witness for C1 (amended) at a concrete two-user training set with the
similar-user oracle answering `[("u2", 1)]`. -/
theorem fv_C1_excl_w :
    (((CFModel.train CFModel.init
          [⟨"u1", "sA", 1⟩, ⟨"u2", "sA", 1⟩, ⟨"u2", "sB", 1⟩]).recommend_stores
        [("u2", 1)] "u1" 10 true).getD []).all
      (fun p => decide ((CFModel.train CFModel.init
          [⟨"u1", "sA", 1⟩, ⟨"u2", "sA", 1⟩, ⟨"u2", "sB", 1⟩]).cell "u1" p.1 ≤ 0))
      = true :=
  fv_C1_excl [⟨"u1", "sA", 1⟩, ⟨"u2", "sA", 1⟩, ⟨"u2", "sB", 1⟩] "u1" [("u2", 1)] 10
    (by decide) (by decide) (by simp)

end Spec2Proof
